import Mathlib

/-
Verification of the philo-voice request-orchestration core.

The definitions below are a shallow embedding of the TypeScript source:
  - src/app/api/chat/route.ts   (chat endpoint: assistant resolution, polling
    state machine, citation extraction, citation-marker stripping)
  - src/lib/tts/index.ts        (speech-synthesis gateway / provider registry)
  - src/lib/tts/openai.ts       (default hosted TTS backend with truncation)
  - the ElevenLabs TTS backend  (alternate backend with a credential guard)
Remote services (OpenAI assistants, files, speech APIs) are modelled as
explicit oracle functions, and every remote call the code would issue is
recorded in an explicit trace, so that statements of the form "fails before
any remote call" are expressible.
-/

namespace PhiloVoice

/-! ## Citation Sanitizer

The chat route runs `responseText.replace(/【\d+:\d+†[^】]*】/g, '')`
(src/app/api/chat/route.ts line 174).  The regex is deterministic: after
the opening bracket it must read a maximal digit run, a colon, a maximal
digit run, a dagger, a maximal run of characters other than the closing
bracket, and the closing bracket.  `matchMarker` decides whether such a
marker is a prefix of the character list and returns the remainder;
`stripCitations` is the left-to-right global replacement, which restarts
the scan immediately after each removed match, exactly as a global regex
replacement does. -/

def matchClose (r2 : List Char) : Option (List Char) :=
  match r2.dropWhile (fun c => c != '】') with
  | c :: r3 => if c = '】' then some r3 else none
  | [] => none

def matchSecondInt (r1 : List Char) : Option (List Char) :=
  if (r1.takeWhile Char.isDigit).isEmpty then none else
  match r1.dropWhile Char.isDigit with
  | c :: r2 => if c = '†' then matchClose r2 else none
  | [] => none

def matchFirstInt (r0 : List Char) : Option (List Char) :=
  if (r0.takeWhile Char.isDigit).isEmpty then none else
  match r0.dropWhile Char.isDigit with
  | c :: r1 => if c = ':' then matchSecondInt r1 else none
  | [] => none

def matchMarker (cs : List Char) : Option (List Char) :=
  match cs with
  | c :: r0 => if c = '【' then matchFirstInt r0 else none
  | [] => none

theorem length_dropWhile_le (p : Char → Bool) (l : List Char) :
    (l.dropWhile p).length ≤ l.length := by
  induction l with
  | nil => simp [List.dropWhile]
  | cons a l ih =>
    simp only [List.dropWhile]
    cases p a
    · simp
    · simp; omega

theorem matchClose_length_lt {r2 r3 : List Char}
    (h : matchClose r2 = some r3) : r3.length < r2.length := by
  unfold matchClose at h
  have hle := length_dropWhile_le (fun c => c != '】') r2
  split at h
  · rename_i c r3x heq
    split at h
    · injection h with h
      subst h
      rw [heq] at hle
      simp at hle
      omega
    · exact absurd h (by simp)
  · exact absurd h (by simp)

theorem matchSecondInt_length_lt {r1 r3 : List Char}
    (h : matchSecondInt r1 = some r3) : r3.length < r1.length := by
  unfold matchSecondInt at h
  have hle := length_dropWhile_le Char.isDigit r1
  split at h
  · exact absurd h (by simp)
  · split at h
    · rename_i c r2 heq
      split at h
      · have h2 := matchClose_length_lt h
        rw [heq] at hle
        simp at hle
        omega
      · exact absurd h (by simp)
    · exact absurd h (by simp)

theorem matchFirstInt_length_lt {r0 r3 : List Char}
    (h : matchFirstInt r0 = some r3) : r3.length < r0.length := by
  unfold matchFirstInt at h
  have hle := length_dropWhile_le Char.isDigit r0
  split at h
  · exact absurd h (by simp)
  · split at h
    · rename_i c r1 heq
      split at h
      · have h2 := matchSecondInt_length_lt h
        rw [heq] at hle
        simp at hle
        omega
      · exact absurd h (by simp)
    · exact absurd h (by simp)

theorem matchMarker_length_lt {cs rest : List Char}
    (h : matchMarker cs = some rest) : rest.length < cs.length := by
  unfold matchMarker at h
  split at h
  · rename_i c r0
    split at h
    · have := matchFirstInt_length_lt h
      simp
      omega
    · exact absurd h (by simp)
  · exact absurd h (by simp)

def stripAux : Nat → List Char → List Char
  | 0, _ => []
  | fuel + 1, cs =>
    match cs with
    | [] => []
    | c :: cs0 =>
      match matchMarker (c :: cs0) with
      | some rest => stripAux fuel rest
      | none => c :: stripAux fuel cs0

/-- One left-to-right pass of the global replacement, with enough fuel to
consume the whole input (every step of the scan consumes at least one
character, so the length of the input suffices). -/
def stripCitations (cs : List Char) : List Char :=
  stripAux cs.length cs

/-- String-level form, as used by the route on the response text. -/
def sanitizeText (s : String) : String :=
  String.mk (stripCitations s.data)

theorem stripAux_fuel_irrel :
    ∀ f g cs, cs.length ≤ f → cs.length ≤ g → stripAux f cs = stripAux g cs := by
  intro f
  induction f with
  | zero =>
    intro g cs hf _
    have : cs = [] := by
      cases cs with
      | nil => rfl
      | cons a l => simp at hf
    subst this
    cases g <;> simp [stripAux]
  | succ f ih =>
    intro g cs hf hg
    cases cs with
    | nil => cases g <;> simp [stripAux]
    | cons c cs0 =>
      cases g with
      | zero => simp at hg
      | succ g =>
        simp only [stripAux]
        cases hm : matchMarker (c :: cs0) with
        | some rest =>
          have hlt := matchMarker_length_lt hm
          simp at hf hg hlt
          exact ih g rest (by omega) (by omega)
        | none =>
          simp at hf hg
          rw [ih g cs0 (by omega) (by omega)]

theorem stripCitations_nil : stripCitations [] = [] := rfl

theorem stripCitations_cons_match {c : Char} {cs0 rest : List Char}
    (h : matchMarker (c :: cs0) = some rest) :
    stripCitations (c :: cs0) = stripCitations rest := by
  have hlt := matchMarker_length_lt h
  unfold stripCitations
  simp only [List.length_cons, stripAux, h]
  exact stripAux_fuel_irrel _ _ rest (by simp at hlt; omega) (Nat.le_refl _)

theorem stripCitations_cons_nomatch {c : Char} {cs0 : List Char}
    (h : matchMarker (c :: cs0) = none) :
    stripCitations (c :: cs0) = c :: stripCitations cs0 := by
  unfold stripCitations
  simp only [List.length_cons, stripAux, h]

/-! Specification-side description of a citation marker: opening bracket,
nonempty digit run, colon, nonempty digit run, dagger, a run of characters
other than the closing bracket, closing bracket.  This mirrors the words of
the spec, independently of the scanner above. -/

def MarkerStr (m : List Char) : Prop :=
  ∃ d1 d2 body, d1 ≠ [] ∧ d2 ≠ [] ∧
    (∀ c ∈ d1, c.isDigit = true) ∧ (∀ c ∈ d2, c.isDigit = true) ∧
    (∀ c ∈ body, c ≠ '】') ∧
    m = '【' :: (d1 ++ ':' :: (d2 ++ '†' :: (body ++ ['】'])))

theorem takeWhile_all_append {p : Char → Bool} :
    ∀ (xs : List Char) (y : Char) (ys : List Char),
      (∀ x ∈ xs, p x = true) → p y = false →
      (xs ++ y :: ys).takeWhile p = xs ∧ (xs ++ y :: ys).dropWhile p = y :: ys := by
  intro xs
  induction xs with
  | nil =>
    intro y ys _ hy
    simp [List.takeWhile, List.dropWhile, hy]
  | cons a xs ih =>
    intro y ys hall hy
    have ha : p a = true := hall a (by simp)
    have := ih y ys (fun x hx => hall x (by simp [hx])) hy
    simp [List.takeWhile, List.dropWhile, ha, this.1, this.2]

theorem matchClose_complete {body : List Char} (hbody : ∀ c ∈ body, c ≠ '】') :
    ∀ rest, matchClose (body ++ '】' :: rest) = some rest := by
  intro rest
  have hbody2 : ∀ c ∈ body, (c != '】') = true := by
    intro c hc; simpa using hbody c hc
  have h := takeWhile_all_append (p := fun c => c != '】') body '】' rest hbody2 (by decide)
  unfold matchClose
  rw [h.2]
  simp

theorem matchSecondInt_complete {d2 body : List Char}
    (hd2 : d2 ≠ []) (hdig : ∀ c ∈ d2, c.isDigit = true)
    (hbody : ∀ c ∈ body, c ≠ '】') :
    ∀ rest, matchSecondInt (d2 ++ '†' :: (body ++ '】' :: rest)) = some rest := by
  intro rest
  have h := takeWhile_all_append d2 '†' (body ++ '】' :: rest) hdig (by decide)
  unfold matchSecondInt
  rw [h.1, h.2]
  have : d2.isEmpty = false := by
    cases d2 with
    | nil => exact absurd rfl hd2
    | cons a l => rfl
  rw [this]
  simp [matchClose_complete hbody rest]

theorem matchFirstInt_complete {d1 d2 body : List Char}
    (hd1 : d1 ≠ []) (hd2 : d2 ≠ [])
    (hdig1 : ∀ c ∈ d1, c.isDigit = true) (hdig2 : ∀ c ∈ d2, c.isDigit = true)
    (hbody : ∀ c ∈ body, c ≠ '】') :
    ∀ rest, matchFirstInt (d1 ++ ':' :: (d2 ++ '†' :: (body ++ '】' :: rest))) = some rest := by
  intro rest
  have h := takeWhile_all_append d1 ':' (d2 ++ '†' :: (body ++ '】' :: rest)) hdig1 (by decide)
  unfold matchFirstInt
  rw [h.1, h.2]
  have : d1.isEmpty = false := by
    cases d1 with
    | nil => exact absurd rfl hd1
    | cons a l => rfl
  rw [this]
  simp [matchSecondInt_complete hd2 hdig2 hbody rest]

theorem matchMarker_complete {m : List Char} (hm : MarkerStr m) :
    ∀ rest, matchMarker (m ++ rest) = some rest := by
  intro rest
  obtain ⟨d1, d2, body, hd1, hd2, hdig1, hdig2, hbody, hmeq⟩ := hm
  subst hmeq
  have : ('【' :: (d1 ++ ':' :: (d2 ++ '†' :: (body ++ ['】'])))) ++ rest =
      '【' :: (d1 ++ ':' :: (d2 ++ '†' :: (body ++ '】' :: rest))) := by
    simp
  rw [this]
  unfold matchMarker
  simp only [if_pos rfl]
  exact matchFirstInt_complete hd1 hd2 hdig1 hdig2 hbody rest

theorem matchClose_sound {r2 r3 : List Char} (h : matchClose r2 = some r3) :
    ∃ body, (∀ c ∈ body, c ≠ '】') ∧ r2 = body ++ '】' :: r3 := by
  unfold matchClose at h
  have he : r2.takeWhile (fun c => c != '】') ++ r2.dropWhile (fun c => c != '】') = r2 :=
    List.takeWhile_append_dropWhile _ _
  split at h
  · rename_i c r3x heq
    split at h
    · rename_i hc
      subst hc
      injection h with h
      subst h
      refine ⟨r2.takeWhile (fun c => c != '】'), ?_, ?_⟩
      · intro c hc
        have := List.mem_takeWhile_imp hc
        simpa using this
      · rw [heq] at he
        exact he.symm
    · exact absurd h (by simp)
  · exact absurd h (by simp)

theorem matchSecondInt_sound {r1 r3 : List Char} (h : matchSecondInt r1 = some r3) :
    ∃ d2 body, d2 ≠ [] ∧ (∀ c ∈ d2, c.isDigit = true) ∧ (∀ c ∈ body, c ≠ '】') ∧
      r1 = d2 ++ '†' :: (body ++ '】' :: r3) := by
  unfold matchSecondInt at h
  have he : r1.takeWhile Char.isDigit ++ r1.dropWhile Char.isDigit = r1 :=
    List.takeWhile_append_dropWhile _ _
  split at h
  · exact absurd h (by simp)
  · rename_i hne
    split at h
    · rename_i c r2 heq
      split at h
      · rename_i hc
        subst hc
        obtain ⟨body, hbody, hr2⟩ := matchClose_sound h
        refine ⟨r1.takeWhile Char.isDigit, body, ?_, ?_, hbody, ?_⟩
        · intro hx; rw [hx] at hne; simp [List.isEmpty] at hne
        · intro c hc; exact List.mem_takeWhile_imp hc
        · rw [heq, hr2] at he
          exact he.symm
      · exact absurd h (by simp)
    · exact absurd h (by simp)

theorem matchFirstInt_sound {r0 r3 : List Char} (h : matchFirstInt r0 = some r3) :
    ∃ d1 d2 body, d1 ≠ [] ∧ d2 ≠ [] ∧
      (∀ c ∈ d1, c.isDigit = true) ∧ (∀ c ∈ d2, c.isDigit = true) ∧
      (∀ c ∈ body, c ≠ '】') ∧
      r0 = d1 ++ ':' :: (d2 ++ '†' :: (body ++ '】' :: r3)) := by
  unfold matchFirstInt at h
  have he : r0.takeWhile Char.isDigit ++ r0.dropWhile Char.isDigit = r0 :=
    List.takeWhile_append_dropWhile _ _
  split at h
  · exact absurd h (by simp)
  · rename_i hne
    split at h
    · rename_i c r1 heq
      split at h
      · rename_i hc
        subst hc
        obtain ⟨d2, body, hd2, hdig2, hbody, hr1⟩ := matchSecondInt_sound h
        refine ⟨r0.takeWhile Char.isDigit, d2, body, ?_, hd2, ?_, hdig2, hbody, ?_⟩
        · intro hx; rw [hx] at hne; simp [List.isEmpty] at hne
        · intro c hc; exact List.mem_takeWhile_imp hc
        · rw [heq, hr1] at he
          exact he.symm
      · exact absurd h (by simp)
    · exact absurd h (by simp)

theorem matchMarker_sound {cs rest : List Char}
    (h : matchMarker cs = some rest) :
    ∃ m, MarkerStr m ∧ cs = m ++ rest := by
  unfold matchMarker at h
  split at h
  · rename_i c r0
    split at h
    · rename_i hc
      subst hc
      obtain ⟨d1, d2, body, hd1, hd2, hdig1, hdig2, hbody, hr0⟩ := matchFirstInt_sound h
      refine ⟨'【' :: (d1 ++ ':' :: (d2 ++ '†' :: (body ++ ['】']))),
        ⟨d1, d2, body, hd1, hd2, hdig1, hdig2, hbody, rfl⟩, ?_⟩
      rw [hr0]
      simp
    · exact absurd h (by simp)
  · exact absurd h (by simp)

/-! The relational specification of the sanitizer: scanning left to right,
a character that does not begin a marker is kept verbatim, and a prefix that
is a marker is removed. -/

inductive Sanit : List Char → List Char → Prop
  | nil : Sanit [] []
  | keep (c : Char) (cs out : List Char) :
      (∀ m rest, MarkerStr m → c :: cs ≠ m ++ rest) →
      Sanit cs out → Sanit (c :: cs) (c :: out)
  | drop (m rest out : List Char) :
      MarkerStr m → Sanit rest out → Sanit (m ++ rest) out

theorem sanit_stripCitations_of_le :
    ∀ n cs, cs.length ≤ n → Sanit cs (stripCitations cs) := by
  intro n
  induction n with
  | zero =>
    intro cs hle
    have : cs = [] := by
      cases cs with
      | nil => rfl
      | cons a l => simp at hle
    subst this
    exact Sanit.nil
  | succ n ih =>
    intro cs hle
    cases cs with
    | nil => exact Sanit.nil
    | cons c cs0 =>
      cases hm : matchMarker (c :: cs0) with
      | some rest =>
        obtain ⟨m, hM, heq⟩ := matchMarker_sound hm
        have hlt := matchMarker_length_lt hm
        rw [stripCitations_cons_match hm, heq]
        exact Sanit.drop m rest _ hM (ih rest (by simp at hle hlt; omega))
      | none =>
        rw [stripCitations_cons_nomatch hm]
        refine Sanit.keep c cs0 _ ?_ (ih cs0 (by simp at hle; omega))
        intro m rest hM hctr
        rw [hctr] at hm
        rw [matchMarker_complete hM rest] at hm
        exact absurd hm (by simp)

theorem sanit_stripCitations (cs : List Char) : Sanit cs (stripCitations cs) :=
  sanit_stripCitations_of_le cs.length cs (Nat.le_refl _)

/-- The input contains, at some offset, a substring that is a citation
marker. -/
def HasMarkerSub (cs : List Char) : Prop :=
  ∃ i m rest, MarkerStr m ∧ cs.drop i = m ++ rest

theorem strip_of_noMarker : ∀ cs, ¬ HasMarkerSub cs → stripCitations cs = cs := by
  intro cs
  induction cs with
  | nil => intro _; rfl
  | cons c cs0 ih =>
    intro hno
    cases hm : matchMarker (c :: cs0) with
    | some rest =>
      obtain ⟨m, hM, heq⟩ := matchMarker_sound hm
      exact absurd ⟨0, m, rest, hM, by simpa using heq⟩ hno
    | none =>
      rw [stripCitations_cons_nomatch hm]
      have : ¬ HasMarkerSub cs0 := by
        intro hsub
        obtain ⟨i, m, rest, hM, hdrop⟩ := hsub
        exact hno ⟨i + 1, m, rest, hM, by simpa using hdrop⟩
      rw [ih this]

theorem noMarkerSub_of_matchNone (cs : List Char)
    (h : ∀ i, i < cs.length → matchMarker (cs.drop i) = none) :
    ¬ HasMarkerSub cs := by
  intro hsub
  obtain ⟨i, m, rest, hM, hdrop⟩ := hsub
  have hcomp : matchMarker (cs.drop i) = some rest := by
    rw [hdrop]; exact matchMarker_complete hM rest
  by_cases hi : i < cs.length
  · rw [h i hi] at hcomp
    exact absurd hcomp (by simp)
  · have : cs.drop i = [] := List.drop_eq_nil_of_le (by omega)
    rw [this] at hcomp
    exact absurd hcomp (by simp [matchMarker])

/-! ## Polling state machine

`waitForRunCompletion` (src/app/api/chat/route.ts lines 57-81) polls the run
status once per loop iteration, up to `maxAttempts` iterations (60 at the
call site), sleeping one second between attempts.  We model the sequence of
statuses the backend reports as a function from the attempt index to the
status string, and the accompanying `last_error` payloads likewise.  The
outcome records how many status fetches were performed.  Real time (the
one-second sleep) is not modelled; the attempt count is. -/

inductive PollOutcome where
  | completed (fetches : Nat)
  | runFailed (status : String) (message : String) (fetches : Nat)
  | timedOut (fetches : Nat)
deriving DecidableEq

/-- The three terminal-failure statuses tested on line 71 of the route. -/
def isTerminalFailure (st : String) : Bool :=
  st = "failed" || st = "cancelled" || st = "expired"

/-- Models `run.last_error?.message || 'Unknown error'` (JavaScript
truthiness: an absent payload and an empty message both fall back). -/
def orUnknownError : Option String → String
  | some m => if m.isEmpty then "Unknown error" else m
  | none => "Unknown error"

def waitAux (status : Nat → String) (lastError : Nat → Option String) :
    Nat → Nat → PollOutcome
  | attempts, 0 => .timedOut attempts
  | attempts, remaining + 1 =>
    let st := status attempts
    if st = "completed" then .completed (attempts + 1)
    else if isTerminalFailure st then
      .runFailed st ("Run " ++ st ++ ": " ++ orUnknownError (lastError attempts))
        (attempts + 1)
    else waitAux status lastError (attempts + 1) remaining

/-- The polling loop, starting from zero attempts.  The route always calls it
with the default cap of 60 attempts. -/
def waitForRunCompletion (status : Nat → String) (lastError : Nat → Option String)
    (maxAttempts : Nat) : PollOutcome :=
  waitAux status lastError 0 maxAttempts

/-- A status that is neither completed nor a terminal failure: the loop
treats it exactly like queued/in-progress and keeps polling. -/
def isPendingLike (st : String) : Bool :=
  !(st = "completed" || isTerminalFailure st)

theorem waitAux_step_pending {status : Nat → String} {lastError : Nat → Option String}
    {a r : Nat} (hp : isPendingLike (status a) = true) :
    waitAux status lastError a (r + 1) = waitAux status lastError (a + 1) r := by
  unfold isPendingLike at hp
  simp only [Bool.not_eq_true', Bool.or_eq_false_iff] at hp
  obtain ⟨h1, h2⟩ := hp
  simp only [waitAux]
  rw [if_neg (by simpa using h1), if_neg (by simp [h2])]

theorem waitAux_skip_pending {status : Nat → String} {lastError : Nat → Option String} :
    ∀ d a r, (∀ j, a ≤ j → j < a + d → isPendingLike (status j) = true) →
      waitAux status lastError a (d + r) = waitAux status lastError (a + d) r := by
  intro d
  induction d with
  | zero => intro a r _; simp
  | succ d ih =>
    intro a r hp
    have h0 : isPendingLike (status a) = true := hp a (Nat.le_refl a) (by omega)
    have : d + 1 + r = (d + r) + 1 := by omega
    rw [this, waitAux_step_pending h0]
    have := ih (a + 1) r (fun j hj1 hj2 => hp j (by omega) (by omega))
    rw [this]
    congr 1
    omega

theorem waitAux_all_pending {status : Nat → String} {lastError : Nat → Option String}
    (n : Nat) (hp : ∀ j, j < n → isPendingLike (status j) = true) :
    waitForRunCompletion status lastError n = .timedOut n := by
  unfold waitForRunCompletion
  have := @waitAux_skip_pending status lastError n 0 0 (fun j _ hj2 => hp j (by omega))
  simpa [waitAux] using this

/-! ## Speech Synthesis Gateway

src/lib/tts/index.ts dispatches on the provider name over a registry with
exactly two entries, `openai` and `elevenlabs`, and throws
`Unknown TTS provider: <name>` when the lookup yields nothing.
src/lib/tts/openai.ts truncates input beyond 4096 characters to its first
4093 characters plus `...` before calling the hosted speech API, and always
wraps the returned audio bytes as a base64 data URL.  The ElevenLabs backend
throws a configuration error before any network call when its API key is
absent.  Text is modelled as a list of characters, remote speech APIs as
oracle functions, and issued network calls are recorded in a trace. -/

inductive NetCall where
  | openaiSpeech (input : List Char)
  | elevenLabsTTS (voiceId : String) (text : List Char)
deriving DecidableEq

/-- Environment variables read by the TTS backends.  `none` models an unset
variable; JavaScript truthiness also treats the empty string as unset. -/
structure TTSEnv where
  elevenLabsApiKey : Option String
  elevenLabsVoiceId : Option String

/-- JavaScript truthiness on an optional environment string: an absent value
and an empty value both count as missing. -/
def truthyEnv : Option String → Option String
  | some s => if s.isEmpty then none else some s
  | none => none

/-- Remote speech services: each returns the base64 audio payload for a
request; the ElevenLabs call may also fail with an error body. -/
structure TTSOracles where
  openaiSpeechApi : List Char → String
  elevenLabsApi : String → List Char → Except String String

def TTSResult : Type := Except String String × List NetCall

/-- The character cap of the hosted backend (src/lib/tts/openai.ts line 28). -/
def ttsMaxLength : Nat := 4096

/-- Models `text.length > maxLength ? text.substring(0, maxLength - 3) + '...' : text`. -/
def openAITTSInput (text : List Char) : List Char :=
  if text.length > ttsMaxLength then text.take (ttsMaxLength - 3) ++ "...".data
  else text

def synthesizeWithOpenAI (o : TTSOracles) (_env : TTSEnv) (text : List Char) : TTSResult :=
  (Except.ok ("data:audio/mp3;base64," ++ o.openaiSpeechApi (openAITTSInput text)),
   [NetCall.openaiSpeech (openAITTSInput text)])

/-- The configuration-guidance message thrown by the ElevenLabs backend when
its API key is missing. -/
def elevenLabsKeyErrorMsg : String :=
  "ElevenLabs API key not configured. Please set ELEVENLABS_API_KEY in your environment variables, or switch to OpenAI TTS by setting TTS_PROVIDER=openai"

/-- Voice id of the `adam` entry of VOICE_IDS, the default voice. -/
def adamVoiceId : String := "21m00Tcm4TlvDq8ikWAM"

def synthesizeWithElevenLabs (o : TTSOracles) (env : TTSEnv) (text : List Char) : TTSResult :=
  match truthyEnv env.elevenLabsApiKey with
  | none => (Except.error elevenLabsKeyErrorMsg, [])
  | some _ =>
    let voiceId := (truthyEnv env.elevenLabsVoiceId).getD adamVoiceId
    match o.elevenLabsApi voiceId text with
    | Except.ok audio =>
      (Except.ok ("data:audio/mpeg;base64," ++ audio), [NetCall.elevenLabsTTS voiceId text])
    | Except.error e =>
      (Except.error ("ElevenLabs API error: " ++ e), [NetCall.elevenLabsTTS voiceId text])

/-- The provider registry of src/lib/tts/index.ts: a record with exactly the
keys `openai` and `elevenlabs`. -/
def ttsProviders (name : String) : Option (TTSOracles → TTSEnv → List Char → TTSResult) :=
  if name = "openai" then some synthesizeWithOpenAI
  else if name = "elevenlabs" then some synthesizeWithElevenLabs
  else none

def synthesizeSpeech (o : TTSOracles) (env : TTSEnv) (text : List Char)
    (provider : String) : TTSResult :=
  match ttsProviders provider with
  | none => (Except.error ("Unknown TTS provider: " ++ provider), [])
  | some synth => synth o env text

/-! ## Conversation Orchestrator (src/app/api/chat/route.ts)

The remote OpenAI backend is modelled by the `ChatBackend` oracle record,
and the process-wide `assistantId` module variable by an explicit cache
value threaded through calls.  Every remote call the handler would issue is
recorded in order in a trace list. -/

structure FileCitation where
  file_id : String
deriving DecidableEq

/-- One entry of `textContent.text.annotations`.  A `file_citation` field of
`none` models an annotation object without a usable `file_citation.file_id`
(the code guards with `annotation.file_citation?.file_id`, so an absent
object and an absent id behave alike). -/
structure Annot where
  type : String
  file_citation : Option FileCitation
deriving DecidableEq

structure ContentBlock where
  type : String
  text : String
  annotations : List Annot
deriving DecidableEq

structure ThreadMessage where
  role : String
  content : List ContentBlock
deriving DecidableEq

inductive RemoteCall where
  | assistantsCreate
  | assistantsRetrieve (id : String)
  | threadsCreate
  | messagesCreate (threadId : String) (content : String)
  | runsCreate (threadId : String) (assistantId : String)
  | runsRetrieve (threadId : String) (runId : String)
  | runStepsList (threadId : String) (runId : String)
  | messagesList (threadId : String)
  | filesRetrieve (id : String)
deriving DecidableEq

/-- Oracles for the remote backend, fixed per request: the ids returned by
creation calls, the polled run statuses, the listed thread messages, and the
file-name lookup (`none` models a lookup that throws). -/
structure ChatBackend where
  envAssistantId : Option String
  createdAssistantId : String
  newThreadId : String
  newRunId : String
  runStatus : Nat → String
  runLastError : Nat → Option String
  threadMessages : List ThreadMessage
  retrieveFile : String → Option String

/-- Lines 23-55 of the route: env id first, then the module-level cache,
then a create (plus a verification retrieve) that fills the cache.  The
cache check on line 29 is `if (assistantId) return assistantId` — JavaScript
truthiness — so a cached empty-string id is falsy and falls through to the
create branch, exactly like an empty cache. -/
def getOrCreateAssistant (b : ChatBackend) (cache : Option String) :
    String × Option String × List RemoteCall :=
  match truthyEnv b.envAssistantId with
  | some eid => (eid, cache, [])
  | none =>
    match truthyEnv cache with
    | some id => (id, cache, [])
    | none =>
      (b.createdAssistantId, some b.createdAssistantId,
       [RemoteCall.assistantsCreate, RemoteCall.assistantsRetrieve b.createdAssistantId])

/-- A sequence of `n` successive invocations threading the process-wide
cache; records each invocation's returned id and issued remote calls. -/
def runAssistantCalls (b : ChatBackend) : Nat → Option String → List (String × List RemoteCall)
  | 0, _ => []
  | n + 1, cache =>
    let r := getOrCreateAssistant b cache
    (r.1, r.2.2) :: runAssistantCalls b n r.2.1

/-- Lines 84-105: collect distinct file ids of `file_citation` annotations
in first-seen order (the JavaScript `Set` iterates in insertion order). -/
def insertUniqueId (ids : List String) (id : String) : List String :=
  if id ∈ ids then ids else ids ++ [id]

/-- The id a single annotation contributes, if any: the type must be
`file_citation` and `file_citation?.file_id` must be truthy. -/
def citedId (a : Annot) : Option String :=
  if a.type = "file_citation" then
    match a.file_citation with
    | some fc => if fc.file_id.isEmpty then none else some fc.file_id
    | none => none
  else none

def collectStep (ids : List String) (a : Annot) : List String :=
  match citedId a with
  | some id => insertUniqueId ids id
  | none => ids

def collectFileIds (annotations : List Annot) : List String :=
  annotations.foldl collectStep []

/-- Lines 93-104: look every distinct id up; a failing lookup is skipped
(the try/catch swallows it) and the loop carries on. -/
def getFileReferences (retrieveFile : String → Option String)
    (annotations : List Annot) : List String :=
  (collectFileIds annotations).filterMap retrieveFile

/-- Specification-side statement that an annotation list cites `id`. -/
def CitedIn (annotations : List Annot) (id : String) : Prop :=
  ∃ a ∈ annotations, a.type = "file_citation" ∧
    ∃ fc, a.file_citation = some fc ∧ fc.file_id = id ∧ id ≠ ""

def fallbackResponse : String := "I could not formulate a response. Please try again."

def pollTrace (threadId runId : String) (fetches : Nat) : List RemoteCall :=
  List.replicate fetches (RemoteCall.runsRetrieve threadId runId)

/-- The parsed request body.  A `message` of `none` models a body whose
`message` is absent or not a string (both fail the line 111 check). -/
structure ChatRequestBody where
  message : Option String
  threadId : Option String

inductive ChatResult where
  | ok (response : String) (threadId : String) (sources : List String)
  | error (status : Nat) (message : String)
deriving DecidableEq

/-- The POST handler (lines 107-204): validation, assistant resolution,
thread resolution, message append, run creation, polling, answer extraction,
citation resolution and sanitization.  A thrown polling error lands in the
generic catch (the thrown value is not an APIError), producing the 500 body.
Returns the response, the updated process-wide assistant cache, and the
ordered trace of issued remote calls. -/
def chatPOST (b : ChatBackend) (assistantCache : Option String)
    (body : ChatRequestBody) : ChatResult × Option String × List RemoteCall :=
  match body.message with
  | none => (ChatResult.error 400 "Message is required", assistantCache, [])
  | some msg =>
    if msg.isEmpty then (ChatResult.error 400 "Message is required", assistantCache, [])
    else
      let ra := getOrCreateAssistant b assistantCache
      let asstId := ra.1
      let cache2 := ra.2.1
      let t1 := ra.2.2
      let rt : String × List RemoteCall :=
        match truthyEnv body.threadId with
        | some tid => (tid, [])
        | none => (b.newThreadId, [RemoteCall.threadsCreate])
      let threadId := rt.1
      let t2 := rt.2
      let tMsg := [RemoteCall.messagesCreate threadId msg]
      let tRun := [RemoteCall.runsCreate threadId asstId]
      match waitForRunCompletion b.runStatus b.runLastError 60 with
      | PollOutcome.completed fetches =>
        let tPoll := pollTrace threadId b.newRunId fetches
        let tPost := [RemoteCall.runStepsList threadId b.newRunId,
                      RemoteCall.messagesList threadId]
        let base := t1 ++ t2 ++ tMsg ++ tRun ++ tPoll ++ tPost
        match b.threadMessages.find? (fun m => m.role == "assistant") with
        | some am =>
          if am.content.length > 0 then
            match am.content.find? (fun c => c.type == "text") with
            | some tc =>
              let pair :=
                if tc.annotations.length > 0 then
                  (getFileReferences b.retrieveFile tc.annotations,
                   (collectFileIds tc.annotations).map RemoteCall.filesRetrieve)
                else ([], [])
              (ChatResult.ok (sanitizeText tc.text) threadId pair.1, cache2,
               base ++ pair.2)
            | none => (ChatResult.ok fallbackResponse threadId [], cache2, base)
          else (ChatResult.ok fallbackResponse threadId [], cache2, base)
        | none => (ChatResult.ok fallbackResponse threadId [], cache2, base)
      | PollOutcome.runFailed _ _ fetches =>
        (ChatResult.error 500 "An unexpected error occurred", cache2,
         t1 ++ t2 ++ tMsg ++ tRun ++ pollTrace threadId b.newRunId fetches)
      | PollOutcome.timedOut fetches =>
        (ChatResult.error 500 "An unexpected error occurred", cache2,
         t1 ++ t2 ++ tMsg ++ tRun ++ pollTrace threadId b.newRunId fetches)

/-! ## Supporting lemmas about citation-id collection -/

theorem mem_insertUniqueId (ids : List String) (id x : String) :
    x ∈ insertUniqueId ids id ↔ x ∈ ids ∨ x = id := by
  unfold insertUniqueId
  split
  · rename_i hmem
    constructor
    · exact fun h => Or.inl h
    · intro h
      cases h with
      | inl h => exact h
      | inr h => exact h ▸ hmem
  · simp

theorem nodup_insertUniqueId (ids : List String) (id : String) (h : ids.Nodup) :
    (insertUniqueId ids id).Nodup := by
  unfold insertUniqueId
  split
  · exact h
  · rename_i hmem
    simp [List.nodup_append, h, hmem]

theorem foldl_collect_nodup : ∀ (l : List Annot) (acc : List String),
    acc.Nodup → (l.foldl collectStep acc).Nodup := by
  intro l
  induction l with
  | nil => intro acc h; simpa using h
  | cons a l ih =>
    intro acc h
    simp only [List.foldl_cons]
    apply ih
    unfold collectStep
    cases citedId a
    · exact h
    · exact nodup_insertUniqueId _ _ h

theorem mem_foldl_collect : ∀ (l : List Annot) (acc : List String) (x : String),
    x ∈ l.foldl collectStep acc ↔ x ∈ acc ∨ ∃ a ∈ l, citedId a = some x := by
  intro l
  induction l with
  | nil => intro acc x; simp
  | cons a l ih =>
    intro acc x
    simp only [List.foldl_cons]
    rw [ih]
    unfold collectStep
    cases hc : citedId a with
    | none =>
      constructor
      · rintro (h | ⟨b, hb, hcb⟩)
        · exact Or.inl h
        · exact Or.inr ⟨b, List.mem_cons_of_mem a hb, hcb⟩
      · rintro (h | ⟨b, hb, hcb⟩)
        · exact Or.inl h
        · rcases List.mem_cons.mp hb with hba | hbl
          · subst hba
            rw [hc] at hcb
            exact absurd hcb (by simp)
          · exact Or.inr ⟨b, hbl, hcb⟩
    | some id =>
      rw [mem_insertUniqueId]
      constructor
      · rintro ((h | hxe) | ⟨b, hb, hcb⟩)
        · exact Or.inl h
        · exact Or.inr ⟨a, List.mem_cons_self a l, by rw [hc, hxe]⟩
        · exact Or.inr ⟨b, List.mem_cons_of_mem a hb, hcb⟩
      · rintro (h | ⟨b, hb, hcb⟩)
        · exact Or.inl (Or.inl h)
        · rcases List.mem_cons.mp hb with hba | hbl
          · subst hba
            rw [hc] at hcb
            injection hcb with he
            exact Or.inl (Or.inr he.symm)
          · exact Or.inr ⟨b, hbl, hcb⟩

theorem citedId_iff (a : Annot) (id : String) :
    citedId a = some id ↔
      a.type = "file_citation" ∧
        ∃ fc, a.file_citation = some fc ∧ fc.file_id = id ∧ id ≠ "" := by
  unfold citedId
  by_cases hty : a.type = "file_citation"
  · rw [if_pos hty]
    simp only [hty, true_and]
    cases hfc : a.file_citation with
    | none => simp
    | some fc =>
      show (if fc.file_id.isEmpty = true then (none : Option String)
          else some fc.file_id) = some id ↔ _
      by_cases he : fc.file_id.isEmpty = true
      · rw [if_pos he]
        have hid : fc.file_id = "" := (String.isEmpty_iff fc.file_id).mp (by simp [he])
        simp only [Option.some.injEq]
        constructor
        · intro h
          exact absurd h (by simp)
        · rintro ⟨fc2, hfc3, hfid, hne⟩
          subst hfc3
          rw [hid] at hfid
          exact absurd hfid.symm hne
      · rw [if_neg he]
        have hne : fc.file_id ≠ "" := by
          intro hc
          rw [hc] at he
          exact he rfl
        simp only [Option.some.injEq]
        constructor
        · intro h
          exact ⟨fc, rfl, h, by rw [← h]; exact hne⟩
        · rintro ⟨fc2, hfc3, hfid, _⟩
          subst hfc3
          exact hfid
  · rw [if_neg hty]
    simp only [hty, false_and, iff_false]
    intro h
    exact absurd h (by simp)

theorem collectFileIds_nodup (annotations : List Annot) :
    (collectFileIds annotations).Nodup :=
  foldl_collect_nodup annotations [] List.nodup_nil

theorem mem_collectFileIds (annotations : List Annot) (x : String) :
    x ∈ collectFileIds annotations ↔ CitedIn annotations x := by
  unfold collectFileIds CitedIn
  rw [mem_foldl_collect]
  simp only [List.not_mem_nil, false_or]
  constructor
  · rintro ⟨a, ha, hc⟩
    obtain ⟨h1, h2⟩ := (citedId_iff a x).mp hc
    exact ⟨a, ha, h1, h2⟩
  · rintro ⟨a, ha, h1, h2⟩
    exact ⟨a, ha, (citedId_iff a x).mpr ⟨h1, h2⟩⟩

theorem truthyEnv_none : truthyEnv none = none := rfl

theorem truthyEnv_some_of_ne {id : String} (hid : id ≠ "") :
    truthyEnv (some id) = some id := by
  show (if id.isEmpty = true then (none : Option String) else some id) = some id
  rw [if_neg (fun hc => hid ((String.isEmpty_iff id).mp hc))]

theorem runAssistantCalls_cached (b : ChatBackend)
    (henv : truthyEnv b.envAssistantId = none) :
    ∀ n id, id ≠ "" → runAssistantCalls b n (some id) = List.replicate n (id, []) := by
  intro n
  induction n with
  | zero => intro id _; rfl
  | succ n ih =>
    intro id hid
    simp only [runAssistantCalls, getOrCreateAssistant, henv, truthyEnv_some_of_ne hid]
    rw [ih id hid]
    rfl

/-! ## Demo oracles used to evaluate closed statements -/

/-- A concrete backend whose configuration supplies the assistant id and
whose run completes on the first poll. -/
def demoBackend : ChatBackend where
  envAssistantId := some "asst_env"
  createdAssistantId := "asst_new"
  newThreadId := "thread_new"
  newRunId := "run_1"
  runStatus := fun _ => "completed"
  runLastError := fun _ => none
  threadMessages := []
  retrieveFile := fun _ => none

/-- A concrete backend without a configured assistant id. -/
def demoCreateBackend : ChatBackend where
  envAssistantId := none
  createdAssistantId := "asst_new"
  newThreadId := "thread_new"
  newRunId := "run_1"
  runStatus := fun _ => "completed"
  runLastError := fun _ => none
  threadMessages := []
  retrieveFile := fun _ => none

def demoOracles : TTSOracles where
  openaiSpeechApi := fun _ => "QUJD"
  elevenLabsApi := fun _ _ => Except.ok "QUJD"

def demoAnns : List Annot :=
  [⟨"file_citation", some ⟨"f1"⟩⟩, ⟨"file_citation", some ⟨"f1"⟩⟩,
   ⟨"file_citation", some ⟨"f2"⟩⟩]

/-! ## Claim theorems -/

/-- C2: for every input text the Citation Sanitizer removes exactly the
substrings matching the citation-marker pattern, scanning left to right, and
leaves every other character unchanged (the relation `Sanit` keeps a
character exactly when no marker starts at it, and drops only marker-shaped
substrings); in particular, a text containing zero markers is returned
unchanged.  The marker pattern `MarkerStr` is stated independently of the
scanner, following the words of the spec. -/
theorem citation_sanitizer_exact :
    (∀ cs, Sanit cs (stripCitations cs)) ∧
    (∀ cs, ¬ HasMarkerSub cs → stripCitations cs = cs) :=
  ⟨sanit_stripCitations, strip_of_noMarker⟩

/-- Witness for C2 at a concrete marker-free input. -/
theorem citation_sanitizer_exact_witness :
    stripCitations "plain text, no markers".data = "plain text, no markers".data :=
  citation_sanitizer_exact.2 "plain text, no markers".data
    (noMarkerSub_of_matchNone _ (by decide))

/-- C3 counterexample: the sanitizer is not idempotent.  Removing the inner
marker of `【1【2:3†x】:4†y】` splices the surrounding text into the new
marker `【1:4†y】`, which a second application removes. -/
theorem citation_sanitizer_not_idempotent :
    stripCitations (stripCitations "【1【2:3†x】:4†y】".data) ≠
      stripCitations "【1【2:3†x】:4†y】".data := by
  decide

/-- C3 (amended): the sanitizer is idempotent on every input whose sanitized
output contains no citation marker — in particular on every marker-free
input and on every input whose markers do not splice the surrounding text
into a new marker. -/
theorem citation_sanitizer_idempotent_on_markerfree_output (cs : List Char)
    (h : ¬ HasMarkerSub (stripCitations cs)) :
    stripCitations (stripCitations cs) = stripCitations cs :=
  strip_of_noMarker _ h

/-- Witness for the amended C3 at a concrete one-marker input. -/
theorem citation_sanitizer_idempotent_witness :
    stripCitations (stripCitations "a 【1:2†s】 b".data) =
      stripCitations "a 【1:2†s】 b".data :=
  citation_sanitizer_idempotent_on_markerfree_output "a 【1:2†s】 b".data
    (noMarkerSub_of_matchNone _ (by decide))

/-- C4: if the polled statuses are pending-like until the run first reports
`completed` on attempt `k` with `1 ≤ k ≤ 60`, then `waitForRunCompletion`
(at the call site's 60-attempt cap) returns the completed outcome after
exactly `k` status fetches.  The fixed one-second sleep between attempts is
real time and is not modelled; the attempt count is. -/
theorem run_completes_with_exact_fetches (status : Nat → String)
    (lastError : Nat → Option String) (k : Nat) (h1 : 1 ≤ k) (h2 : k ≤ 60)
    (hpend : ∀ j, j < k - 1 → isPendingLike (status j) = true)
    (hdone : status (k - 1) = "completed") :
    waitForRunCompletion status lastError 60 = PollOutcome.completed k := by
  unfold waitForRunCompletion
  have hsplit : 60 = (k - 1) + ((60 - k) + 1) := by omega
  rw [hsplit, waitAux_skip_pending (k - 1) 0 ((60 - k) + 1)
    (fun j hj1 hj2 => hpend j (by omega))]
  have e : (k - 1) + 1 = k := by omega
  simp [waitAux, hdone, e]

/-- Witness for C4: pending twice, then completed on the third attempt. -/
theorem run_completes_with_exact_fetches_witness :
    waitForRunCompletion (fun j => if j < 2 then "in_progress" else "completed")
      (fun _ => none) 60 = PollOutcome.completed 3 :=
  run_completes_with_exact_fetches _ _ 3 (by decide) (by decide) (by decide) (by decide)

/-- C5: the polling loop fails in exactly two ways.  If the first
non-pending status observed, on attempt `i + 1 ≤ 60`, is one of `failed`,
`cancelled` or `expired`, it fails immediately on that attempt — after
exactly `i + 1` fetches, with no retry of the terminal state — with the
message built from the backend's reported reason (`Run <status>: <reason>`,
defaulting to `Unknown error`).  If all 60 attempts observe pending-like
statuses it fails with the timeout error after 60 fetches. -/
theorem run_failure_modes :
    (∀ status lastError i, i < 60 →
      (∀ j, j < i → isPendingLike (status j) = true) →
      isTerminalFailure (status i) = true →
      waitForRunCompletion status lastError 60 =
        PollOutcome.runFailed (status i)
          ("Run " ++ status i ++ ": " ++ orUnknownError (lastError i)) (i + 1)) ∧
    (∀ status lastError, (∀ j, j < 60 → isPendingLike (status j) = true) →
      waitForRunCompletion status lastError 60 = PollOutcome.timedOut 60) := by
  constructor
  · intro status lastError i hi hpend hterm
    have hnc : ¬ status i = "completed" := by
      unfold isTerminalFailure at hterm
      simp only [Bool.or_eq_true, decide_eq_true_eq] at hterm
      intro hc
      rw [hc] at hterm
      simp at hterm
    unfold waitForRunCompletion
    have hsplit : 60 = i + ((59 - i) + 1) := by omega
    rw [hsplit, waitAux_skip_pending i 0 ((59 - i) + 1)
      (fun j hj1 hj2 => hpend j (by omega))]
    simp [waitAux, hnc, hterm]
  · intro status lastError hpend
    exact waitAux_all_pending 60 (fun j hj => hpend j hj)

/-- Witness for C5: a run failing on the second attempt with a reported
reason, and a run that never leaves pending. -/
theorem run_failure_modes_witness :
    waitForRunCompletion (fun j => if j = 0 then "in_progress" else "failed")
      (fun _ => some "boom") 60 = PollOutcome.runFailed "failed" "Run failed: boom" 2 ∧
    waitForRunCompletion (fun _ => "in_progress") (fun _ => none) 60 =
      PollOutcome.timedOut 60 := by
  constructor
  · exact (run_failure_modes.1 (fun j => if j = 0 then "in_progress" else "failed")
      (fun _ => some "boom") 1 (by decide) (by decide) (by decide)).trans (by decide)
  · exact run_failure_modes.2 _ _ (by decide)

/-- C10: a status outside {completed, failed, cancelled, expired} — such as
`requires_action` or `incomplete` — makes a polling iteration neither return
nor throw: the loop simply advances to the next attempt, so a run stuck in
such a status exhausts the 60-attempt cap and times out after 60 fetches. -/
theorem nonterminal_status_treated_as_pending :
    (∀ status lastError a r, isPendingLike (status a) = true →
      waitAux status lastError a (r + 1) = waitAux status lastError (a + 1) r) ∧
    (∀ lastError, waitForRunCompletion (fun _ => "requires_action") lastError 60 =
      PollOutcome.timedOut 60) ∧
    (∀ lastError, waitForRunCompletion (fun _ => "incomplete") lastError 60 =
      PollOutcome.timedOut 60) := by
  refine ⟨fun status lastError a r hp => waitAux_step_pending hp,
    fun lastError => ?_, fun lastError => ?_⟩
  · exact waitAux_all_pending 60 (fun j _ => by decide)
  · exact waitAux_all_pending 60 (fun j _ => by decide)

/-- Witness for C10: one pending step, and the timeout on a run stuck in
`requires_action`. -/
theorem nonterminal_status_treated_as_pending_witness :
    waitAux (fun _ => "queued") (fun _ => none) 0 60 =
      waitAux (fun _ => "queued") (fun _ => none) 1 59 ∧
    waitForRunCompletion (fun _ => "requires_action") (fun _ => none) 60 =
      PollOutcome.timedOut 60 :=
  ⟨nonterminal_status_treated_as_pending.1 _ _ 0 59 (by decide),
   nonterminal_status_treated_as_pending.2.1 _⟩

/-- C1 counterexample: a whitespace-only message (here a single space) is
not rejected — the line 111 check `!message || typeof message !== 'string'`
does not trim — so the handler proceeds and issues remote calls instead of
failing with the 400 InvalidInput error. -/
theorem chat_whitespace_message_not_rejected :
    (chatPOST demoBackend none ⟨some " ", none⟩).1 ≠
      ChatResult.error 400 "Message is required" ∧
    (chatPOST demoBackend none ⟨some " ", none⟩).2.2 ≠ [] := by
  decide

/-- C1 (amended): a request whose message is absent, not a string, or the
empty string fails with the 400 InvalidInput error before any remote call —
the trace is empty and the process state is untouched.  Whitespace-only
non-empty messages are not rejected. -/
theorem chat_empty_message_rejected (b : ChatBackend) (cache : Option String)
    (body : ChatRequestBody) (h : body.message = none ∨ body.message = some "") :
    chatPOST b cache body = (ChatResult.error 400 "Message is required", cache, []) := by
  cases h with
  | inl h => unfold chatPOST; rw [h]
  | inr h => unfold chatPOST; rw [h]; rfl

/-- Witness for the amended C1 at the empty message. -/
theorem chat_empty_message_rejected_witness :
    chatPOST demoBackend none ⟨some "", none⟩ =
      (ChatResult.error 400 "Message is required", none, []) :=
  chat_empty_message_rejected demoBackend none ⟨some "", none⟩ (Or.inr rfl)

/-- C6: the default (hosted) TTS backend truncates input longer than the
4096-character limit to its first 4093 characters followed by the visible
`...` marker — total length exactly 4096 — and still returns the base64
data-URL audio handle; input of length at most 4096 is passed through
unmodified. -/
theorem openai_tts_truncation :
    (∀ o env text, text.length > 4096 →
      openAITTSInput text = text.take 4093 ++ "...".data ∧
      (openAITTSInput text).length = 4096 ∧
      synthesizeWithOpenAI o env text =
        (Except.ok ("data:audio/mp3;base64," ++
          o.openaiSpeechApi (text.take 4093 ++ "...".data)),
         [NetCall.openaiSpeech (text.take 4093 ++ "...".data)])) ∧
    (∀ o env text, text.length ≤ 4096 →
      synthesizeWithOpenAI o env text =
        (Except.ok ("data:audio/mp3;base64," ++ o.openaiSpeechApi text),
         [NetCall.openaiSpeech text])) := by
  have e3 : (4096 : Nat) - 3 = 4093 := by norm_num
  constructor
  · intro o env text hlen
    have he : openAITTSInput text = text.take 4093 ++ "...".data := by
      unfold openAITTSInput ttsMaxLength
      rw [if_pos (by omega), e3]
    refine ⟨he, ?_, ?_⟩
    · rw [he]
      have h3 : ("...".data).length = 3 := by decide
      rw [List.length_append, List.length_take, h3]
      omega
    · unfold synthesizeWithOpenAI
      rw [he]
  · intro o env text hlen
    have he : openAITTSInput text = text := by
      unfold openAITTSInput ttsMaxLength
      rw [if_neg (by omega)]
    unfold synthesizeWithOpenAI
    rw [he]

/-- Witness for C6: a 5000-character text is truncated to exactly 4096
characters. -/
theorem openai_tts_truncation_witness :
    (openAITTSInput (List.replicate 5000 'a')).length = 4096 :=
  ((openai_tts_truncation.1 demoOracles ⟨none, none⟩ (List.replicate 5000 'a')
    (by rw [List.length_replicate]; omega)).2).1

/-- C7: a provider name outside the registry fails with the UnknownProvider
error and an empty network trace (no network call, no fallback), and the
registered ElevenLabs backend invoked with its API key absent (unset or
empty) fails with the configuration-guidance message — which names the
ELEVENLABS_API_KEY variable and the TTS_PROVIDER switch — again with an
empty network trace. -/
theorem tts_gateway_guards :
    (∀ o env text name, name ≠ "openai" → name ≠ "elevenlabs" →
      synthesizeSpeech o env text name =
        (Except.error ("Unknown TTS provider: " ++ name), [])) ∧
    (∀ o env text, truthyEnv env.elevenLabsApiKey = none →
      synthesizeSpeech o env text "elevenlabs" =
        (Except.error elevenLabsKeyErrorMsg, [])) := by
  constructor
  · intro o env text name h1 h2
    unfold synthesizeSpeech ttsProviders
    rw [if_neg h1, if_neg h2]
  · intro o env text hkey
    have hred : synthesizeSpeech o env text "elevenlabs" =
        synthesizeWithElevenLabs o env text := rfl
    rw [hred]
    unfold synthesizeWithElevenLabs
    rw [hkey]

/-- Witness for C7: the unregistered name `azure`, and ElevenLabs with no
key configured. -/
theorem tts_gateway_guards_witness :
    synthesizeSpeech demoOracles ⟨none, none⟩ "hi".data "azure" =
      (Except.error ("Unknown TTS provider: " ++ "azure"), []) ∧
    synthesizeSpeech demoOracles ⟨none, none⟩ "hi".data "elevenlabs" =
      (Except.error elevenLabsKeyErrorMsg, []) :=
  ⟨tts_gateway_guards.1 demoOracles ⟨none, none⟩ "hi".data "azure" (by decide) (by decide),
   tts_gateway_guards.2 demoOracles ⟨none, none⟩ "hi".data rfl⟩

/-- C8: the collected file ids are exactly the distinct cited ids (no
duplicates: an id cited twice appears once), and `getFileReferences` is the
total function returning, in order, the names of exactly those distinct ids
whose lookup succeeded — a failing lookup is skipped without aborting. -/
theorem file_references_dedup_and_skip (annotations : List Annot)
    (retrieveFile : String → Option String) :
    (collectFileIds annotations).Nodup ∧
    (∀ id, id ∈ collectFileIds annotations ↔ CitedIn annotations id) ∧
    (∀ id, CitedIn annotations id → (collectFileIds annotations).count id = 1) ∧
    getFileReferences retrieveFile annotations =
      (collectFileIds annotations).filterMap retrieveFile := by
  refine ⟨collectFileIds_nodup annotations,
    fun id => mem_collectFileIds annotations id, ?_, rfl⟩
  intro id hcit
  exact List.count_eq_one_of_mem (collectFileIds_nodup annotations)
    ((mem_collectFileIds annotations id).mpr hcit)

/-- Witness for C8: two citations of `f1` yield the id once; the failing
lookup of `f2` is skipped. -/
theorem file_references_dedup_and_skip_witness :
    (collectFileIds demoAnns).count "f1" = 1 ∧
    getFileReferences (fun id => if id = "f1" then some "Book A" else none) demoAnns =
      (collectFileIds demoAnns).filterMap
        (fun id => if id = "f1" then some "Book A" else none) :=
  ⟨(file_references_dedup_and_skip demoAnns (fun _ => none)).2.2.1 "f1"
    ⟨⟨"file_citation", some ⟨"f1"⟩⟩, by decide, rfl, ⟨"f1"⟩, rfl, rfl, by decide⟩,
   (file_references_dedup_and_skip demoAnns
     (fun id => if id = "f1" then some "Book A" else none)).2.2.2⟩

/-- C9: if the configuration supplies an assistant id, every invocation of
`getOrCreateAssistant` returns it verbatim with no remote call and no state
change; otherwise, provided the backend returns a truthy (non-empty) id
from creation — the remote API's ids are never empty, and a falsy cached id
would fall through the line 29 truthiness check and re-create — a sequence
of `n + 1` invocations issues the create call (and its verification
retrieve) exactly once, on the first invocation, and every subsequent
invocation returns the cached id unchanged with no remote call: the cache
is never invalidated. -/
theorem assistant_resolution_policy :
    (∀ b cache eid, truthyEnv b.envAssistantId = some eid →
      getOrCreateAssistant b cache = (eid, cache, [])) ∧
    (∀ b, truthyEnv b.envAssistantId = none → b.createdAssistantId ≠ "" → ∀ n,
      runAssistantCalls b (n + 1) none =
        (b.createdAssistantId,
          [RemoteCall.assistantsCreate,
           RemoteCall.assistantsRetrieve b.createdAssistantId]) ::
          List.replicate n (b.createdAssistantId, [])) := by
  constructor
  · intro b cache eid henv
    unfold getOrCreateAssistant
    rw [henv]
  · intro b henv hcid n
    simp only [runAssistantCalls, getOrCreateAssistant, henv, truthyEnv_none]
    rw [runAssistantCalls_cached b henv n b.createdAssistantId hcid]

/-- Witness for C9: the env-supplied id is returned verbatim, and without
an env id three successive calls create once then reuse the cache. -/
theorem assistant_resolution_policy_witness :
    getOrCreateAssistant demoBackend none = ("asst_env", none, []) ∧
    runAssistantCalls demoCreateBackend 3 none =
      ("asst_new", [RemoteCall.assistantsCreate,
        RemoteCall.assistantsRetrieve "asst_new"]) ::
        List.replicate 2 ("asst_new", []) :=
  ⟨assistant_resolution_policy.1 demoBackend none "asst_env" (by decide),
   assistant_resolution_policy.2 demoCreateBackend (by decide) (by decide) 2⟩

end PhiloVoice
